import Mathlib

/-!
Verification of the Tongue-Ai-Agent FastAPI service.

Shallow embedding of the agent executor (`agents/agent.py`), the long-term
memory store (`utils/memory_manager.py`), the route-level context-query and
streaming logic (`routes.py`), and the SSE stream builder
(`utils/streaming.py`).  The generation backend and the vision model are
opaque collaborators, passed in as function parameters.  PostgreSQL tables
are modelled as in-memory lists of rows; each store method is one atomic
transaction (the `_get_connection` context manager commits the whole body
or rolls the whole body back).
-/

namespace TongueAgent

/-- Message roles of the langchain message classes used by the service:
`SystemMessage`, `HumanMessage`, AI responses and `ToolMessage`. -/
inductive Role
  | system
  | human
  | ai
  | tool
deriving DecidableEq

/-- One tool-call request attached to an AI message.  The field
`imagePathArg` is the value of `tool_call["args"].get("image_path", "")`;
the empty string encodes an absent or empty argument, exactly as the
Python truthiness test in `tool_node` treats it. -/
structure ToolCall where
  id : String
  name : String
  imagePathArg : String
deriving DecidableEq

/-- A chat message.  `toolCalls` is non-empty only on AI messages that
request tools; `toolCallId` is set only on tool-result messages. -/
structure Message where
  role : Role
  content : String
  toolCalls : List ToolCall := []
  toolCallId : Option String := none
deriving DecidableEq

/-- The slice of `AgentState` (agents/agent.py) read by the embedded nodes:
`messages`, `image_path` and `memory_context`.  `image_path` is a string
with the empty string for `None`/missing, matching the truthiness tests in
`tool_node`; `memory_context` keeps its `Optional` type.  The remaining
fields (`prediction_results`, `additional_info`, `analysis_stage`,
`final_response`, `user_id`, `session_id`) are never read by
`agent_node`, `chat_node` or `tool_node` and are omitted. -/
structure AgentState where
  messages : List Message
  imagePath : String := ""
  memoryContext : Option String := none
deriving DecidableEq

/-- Error payload of `tool_node` for a request naming an unregistered tool. -/
def unknownToolContent (toolName : String) : String :=
  "未知工具: " ++ toolName

/-- Error payload of `tool_node` when no image path is resolvable. -/
def missingPathContent : String :=
  "錯誤：未提供圖片路徑"

/-- Content of a successful tool-result: the JSON dump of the result dict
returned by `predict_tongue_image_tool` (the dump is opaque here). -/
def predictResultContent (resultJson : String) : String :=
  "預測結果：\n" ++ resultJson

/-- The body of the `for tool_call in tool_calls` loop of `tool_node`
(agents/agent.py lines 176-215), for one tool-call request.  `invokeTool`
is the opaque `predict_tool.invoke` composed with `json.dumps`; the Python
tool catches every exception internally and always returns a result dict,
so it is a total function here. -/
def runToolCall (invokeTool : String → String) (statePath : String) (tc : ToolCall) : Message :=
  if tc.name = "predict_tongue_image_tool" then
    let path := if tc.imagePathArg = "" then statePath else tc.imagePathArg
    if path = "" then
      { role := Role.tool, content := missingPathContent, toolCallId := some tc.id }
    else
      { role := Role.tool, content := predictResultContent (invokeTool path), toolCallId := some tc.id }
  else
    { role := Role.tool, content := unknownToolContent tc.name, toolCallId := some tc.id }

/-- The tool calls carried by `messages[-1]`, or `[]` when the attribute is
absent or falsy (`tool_node` lines 169-171). -/
def lastToolCalls (msgs : List Message) : List ToolCall :=
  match msgs.getLast? with
  | none => []
  | some m => m.toolCalls

/-- `tool_node` (agents/agent.py lines 163-217): one tool-result message per
tool-call request of the last message, in request order. -/
def toolNode (invokeTool : String → String) (st : AgentState) : List Message :=
  (lastToolCalls st.messages).map (runToolCall invokeTool st.imagePath)

/-- `any(isinstance(msg, SystemMessage) for msg in messages)`. -/
def hasSystemMessage (msgs : List Message) : Bool :=
  msgs.any (fun m => decide (m.role = Role.system))

/-- Extension of a system prompt with the memory context, applied only when
the context is truthy (`if memory_context:` is false for `None` and `""`). -/
def extendWithMemory (base : String) (memCtx : Option String) : String :=
  match memCtx with
  | none => base
  | some c => if c = "" then base else base ++ "\n\n用戶歷史記憶和偏好：\n" ++ c

/-- System prompt of `chat_node`. -/
def chatBasePrompt : String :=
  "你是一位友善、專業的AI助手。"

/-- `PromptTemplates.TOOL_AGENT_SYSTEM`, abbreviated to its first line; the
spec leaves prompt wording out of scope and no claim depends on it. -/
def toolAgentBasePrompt : String :=
  "你是一位專業的中醫舌診分析 AI 助手。你可以分析舌診圖片並提供健康建議。"

/-- The message list `agent_node` hands to the LLM (agents/agent.py lines
142-154): the log, with a freshly synthesized system preamble prepended
when the log holds no system message. -/
def agentPrompt (st : AgentState) : List Message :=
  if hasSystemMessage st.messages then st.messages
  else
    { role := Role.system, content := extendWithMemory toolAgentBasePrompt st.memoryContext }
      :: st.messages

/-- `agent_node` (agents/agent.py lines 140-160): invokes the tool-bound LLM
on `agentPrompt` and returns only `[response]` — the synthesized preamble
is not part of the returned messages. -/
def agentNode (llm : List Message → Message) (st : AgentState) : List Message :=
  [llm (agentPrompt st)]

/-- `chat_node` (agents/agent.py lines 256-292): when the log holds no
system message, the synthesized system message is returned together with
the response, so the checkpointer persists it. -/
def chatNode (llm : List Message → Message) (st : AgentState) : List Message :=
  if hasSystemMessage st.messages then
    [llm st.messages]
  else
    let sysMsg : Message :=
      { role := Role.system, content := extendWithMemory chatBasePrompt st.memoryContext }
    [sysMsg, llm (sysMsg :: st.messages)]

/-- One turn of the CHAT-mode agent: the new human message joins the log
(`add_messages` appends), `chat_node` runs once, and its returned messages
are appended to the log by the same reducer. -/
def chatTurn (llm : List Message → Message) (log : List Message)
    (memCtx : Option String) (userText : String) : List Message :=
  let st : AgentState :=
    { messages := log ++ [{ role := Role.human, content := userText }], memoryContext := memCtx }
  st.messages ++ chatNode llm st

/-- One generation round of the TOOL_ENABLED-mode agent in which the LLM
response carries no tool calls, so the turn ends after `agent_node`. -/
def agentTurn (llm : List Message → Message) (log : List Message)
    (memCtx : Option String) (userText : String) : List Message :=
  let st : AgentState :=
    { messages := log ++ [{ role := Role.human, content := userText }], memoryContext := memCtx }
  st.messages ++ agentNode llm st

/-- `should_continue` (agents/agent.py lines 220-229): `"tools"` exactly
when the last message carries a truthy `tool_calls` attribute. -/
def shouldContinue (msgs : List Message) : String :=
  if (lastToolCalls msgs).isEmpty then "end" else "tools"

/-- Outcome of running the TOOL_ENABLED graph with bounded observation
fuel.  The graph itself (create_unified_agent, lines 295-328) has no
error outcome of its own: `stillRunning` records that the loop was still
cycling when observation fuel ran out. -/
inductive LoopOutcome
  | finished (msgs : List Message)
  | stillRunning (msgs : List Message)
deriving DecidableEq

/-- Whether a loop outcome is a completed turn. -/
def loopFinished : LoopOutcome → Bool
  | LoopOutcome.finished _ => true
  | LoopOutcome.stillRunning _ => false

/-- The TOOL_ENABLED graph of `create_unified_agent`: entry `agent`, the
conditional edge `should_continue` to `tools` or `END`, and the edge
`tools → agent`.  `fuel` only bounds observation; the graph itself carries
no round counter. -/
def runToolAgent (llm : List Message → Message) (invokeTool : String → String) :
    Nat → AgentState → LoopOutcome
  | 0, st => LoopOutcome.stillRunning st.messages
  | fuel + 1, st =>
    let st1 : AgentState := { st with messages := st.messages ++ agentNode llm st }
    if shouldContinue st1.messages = "tools" then
      runToolAgent llm invokeTool fuel
        { st1 with messages := st1.messages ++ toolNode invokeTool st1 }
    else
      LoopOutcome.finished st1.messages

/-- A row of the `user_memory` table (`users` in the logical schema):
`preferences` is the JSON text column, `none` for SQL NULL. -/
structure UserRow where
  userId : String
  preferences : Option String
  createdAt : Nat
  updatedAt : Nat
deriving DecidableEq

/-- A row of the `long_term_memories` table.  `importance` is the REAL
column `importance_score`, modelled as a rational; `metadata` is the JSON
text column. -/
structure MemoryRow where
  id : Nat
  userId : String
  memoryType : String
  content : String
  metadata : String
  importance : ℚ
  createdAt : Nat
  updatedAt : Nat
deriving DecidableEq

/-- A row of the `session_memory` table. -/
structure SessionRow where
  sessionId : String
  userId : String
  summary : String
  keyPoints : String
  createdAt : Nat
  updatedAt : Nat
deriving DecidableEq

/-- A row of the `tongue_analysis_records` table. -/
structure AnalysisRow where
  id : Nat
  userId : String
  sessionId : Option String
  predictionResults : String
  analysisResponse : String
  additionalInfo : Option String
  createdAt : Nat
deriving DecidableEq

/-- The four tables of the long-term store. -/
structure Db where
  users : List UserRow
  memories : List MemoryRow
  sessions : List SessionRow
  analyses : List AnalysisRow
deriving DecidableEq

/-- The store right after `_init_database`. -/
def emptyDb : Db :=
  { users := [], memories := [], sessions := [], analyses := [] }

/-- Whether a `user_memory` row with the given primary key exists. -/
def hasUser (users : List UserRow) (uid : String) : Bool :=
  users.any (fun u => decide (u.userId = uid))

/-- `INSERT INTO user_memory (user_id, updated_at) VALUES (...) ON CONFLICT
(user_id) DO NOTHING` — the idempotent upsert run before every child write. -/
def ensureUser (db : Db) (uid : String) (now : Nat) : Db :=
  if hasUser db.users uid then db
  else
    { db with users := db.users ++ [{ userId := uid, preferences := none, createdAt := now, updatedAt := now }] }

/-- `save_user_preference` (memory_manager.py lines 152-164): upsert with
`DO UPDATE SET preferences, updated_at`. -/
def saveUserPreference (db : Db) (uid : String) (prefsJson : String) (now : Nat) : Db :=
  if hasUser db.users uid then
    { db with users := db.users.map (fun u =>
        if u.userId = uid then { u with preferences := some prefsJson, updatedAt := now } else u) }
  else
    { db with users := db.users ++ [{ userId := uid, preferences := some prefsJson, createdAt := now, updatedAt := now }] }

/-- `get_user_preference` (memory_manager.py lines 166-176): `None` unless a
row exists and its `preferences` column is truthy (`if row and row[0]`),
so SQL NULL and the empty string both yield `None`. -/
def getUserPreference (db : Db) (uid : String) : Option String :=
  match db.users.find? (fun u => decide (u.userId = uid)) with
  | none => none
  | some u =>
    match u.preferences with
    | none => none
    | some p => if p = "" then none else some p

/-- `save_memory` (memory_manager.py lines 223-257): the user upsert
followed by a plain append of the memory row, in one transaction.  The
importance score is inserted exactly as passed. -/
def saveMemory (db : Db) (uid memoryType content metadataJson : String)
    (importanceScore : ℚ) (now newId : Nat) : Db :=
  let db1 := ensureUser db uid now
  { db1 with memories := db1.memories ++
      [{ id := newId, userId := uid, memoryType := memoryType, content := content,
         metadata := metadataJson, importance := importanceScore, createdAt := now, updatedAt := now }] }

/-- `save_session_summary` (memory_manager.py lines 178-200): user upsert,
then an upsert on `session_id` whose `DO UPDATE` branch rewrites summary,
key points and `updated_at` but leaves the stored `user_id` unchanged. -/
def saveSessionSummary (db : Db) (sid uid summary keyPointsJson : String) (now : Nat) : Db :=
  let db1 := ensureUser db uid now
  if db1.sessions.any (fun s => decide (s.sessionId = sid)) then
    { db1 with sessions := db1.sessions.map (fun s =>
        if s.sessionId = sid then
          { s with summary := summary, keyPoints := keyPointsJson, updatedAt := now }
        else s) }
  else
    { db1 with sessions := db1.sessions ++
        [{ sessionId := sid, userId := uid, summary := summary, keyPoints := keyPointsJson, createdAt := now, updatedAt := now }] }

/-- `save_tongue_analysis` (memory_manager.py lines 361-395): user upsert
then append of the analysis record, in one transaction. -/
def saveTongueAnalysis (db : Db) (uid : String) (sid : Option String)
    (predictionJson analysisResponse : String) (additionalInfo : Option String)
    (now newId : Nat) : Db :=
  let db1 := ensureUser db uid now
  { db1 with analyses := db1.analyses ++
      [{ id := newId, userId := uid, sessionId := sid, predictionResults := predictionJson,
         analysisResponse := analysisResponse, additionalInfo := additionalInfo, createdAt := now }] }

/-- Literal substring test: whether `q` occurs inside the second list as a
contiguous run.  This is the spec's reading of "substring match"; it is
what SQL LIKE does only when the query holds no wildcard or escape
characters. -/
def subMatch (q : List Char) : List Char → Bool
  | [] => q.isEmpty
  | c :: t => q.isPrefixOf (c :: t) || subMatch q t

/-- One element of a parsed SQL LIKE pattern: `%` (any run), `_` (any one
character), or a literal character. -/
inductive LikeTok
  | any
  | one
  | lit (c : Char)
deriving DecidableEq

/-- Parse a LIKE pattern: `%` and `_` are wildcards and a backslash (the
default PostgreSQL escape character) makes the following character
literal.  The lone-trailing-backslash arm never arises from the patterns
`search_memories` builds, which always end in `%`. -/
def likeToks : List Char → List LikeTok
  | [] => []
  | c :: p =>
    if c = '%' then LikeTok.any :: likeToks p
    else if c = '_' then LikeTok.one :: likeToks p
    else if c = '\\' then
      match p with
      | [] => [LikeTok.lit '\\']
      | d :: p' => LikeTok.lit d :: likeToks p'
    else LikeTok.lit c :: likeToks p

/-- Match `%` followed by the rest of the pattern (decided by `f`) against
a string: try every suffix. -/
def likeStar (f : List Char → Bool) : List Char → Bool
  | [] => f []
  | c :: t => f (c :: t) || likeStar f t

/-- Run a parsed LIKE pattern against a whole string. -/
def likeRun : List LikeTok → List Char → Bool
  | [], s => s.isEmpty
  | LikeTok.any :: p, s => likeStar (likeRun p) s
  | LikeTok.one :: p, s =>
    match s with
    | [] => false
    | _ :: t => likeRun p t
  | LikeTok.lit c :: p, s =>
    match s with
    | [] => false
    | c2 :: t => (c == c2) && likeRun p t

/-- SQL `s LIKE p`: the whole string matches the pattern. -/
def likeMatch (p s : List Char) : Bool :=
  likeRun (likeToks p) s

/-- `hay LIKE '%' || q || '%'` exactly as `search_memories` builds it
(memory_manager.py lines 291-294): the query is embedded unescaped in the
f-string pattern, so `%`, `_` and backslash inside the query stay live. -/
def likeContains (hay q : String) : Bool :=
  likeMatch (('%' :: q.toList) ++ ['%']) hay.toList

/-- Whether a query holds neither wildcard nor escape characters — the
case in which LIKE containment and literal substring match coincide. -/
def plainQuery (q : List Char) : Bool :=
  q.all (fun c => !(decide (c = '%')) && !(decide (c = '_')) && !(decide (c = '\\')))

/-- The `memory_type` condition of `search_memories`: added to the WHERE
clause only when `memory_type` is truthy (`if memory_type:`). -/
def typeFilter (memoryType : Option String) (r : MemoryRow) : Bool :=
  match memoryType with
  | none => true
  | some t => if t = "" then true else decide (r.memoryType = t)

/-- The `query` condition of `search_memories`: `content LIKE %q% OR
metadata LIKE %q%`, added only when `query` is truthy. -/
def queryFilter (query : Option String) (r : MemoryRow) : Bool :=
  match query with
  | none => true
  | some q => if q = "" then true else likeContains r.content q || likeContains r.metadata q

/-- The full WHERE clause of `search_memories` (memory_manager.py lines
284-296). -/
def rowMatches (uid : String) (query memoryType : Option String)
    (minImportance : ℚ) (r : MemoryRow) : Bool :=
  decide (r.userId = uid) && decide (minImportance ≤ r.importance)
    && typeFilter memoryType r && queryFilter query r

/-- `ORDER BY importance_score DESC, updated_at DESC`: row `a` may precede
row `b`. -/
def memOrder (a b : MemoryRow) : Prop :=
  b.importance < a.importance ∨ (a.importance = b.importance ∧ b.updatedAt ≤ a.updatedAt)

instance : DecidableRel memOrder := fun a b => by
  unfold memOrder; infer_instance

instance : IsTotal MemoryRow memOrder where
  total a b := by
    rcases lt_trichotomy a.importance b.importance with h | h | h
    · exact Or.inr (Or.inl h)
    · rcases Nat.le_total b.updatedAt a.updatedAt with h2 | h2
      · exact Or.inl (Or.inr ⟨h, h2⟩)
      · exact Or.inr (Or.inr ⟨h.symm, h2⟩)
    · exact Or.inl (Or.inl h)

instance : IsTrans MemoryRow memOrder where
  trans a b c hab hbc := by
    rcases hab with h1 | ⟨e1, l1⟩
    · rcases hbc with h2 | ⟨e2, l2⟩
      · exact Or.inl (h2.trans h1)
      · exact Or.inl (e2 ▸ h1)
    · rcases hbc with h2 | ⟨e2, l2⟩
      · exact Or.inl (e1 ▸ h2)
      · exact Or.inr ⟨e1.trans e2, l2.trans l1⟩

/-- `search_memories` (memory_manager.py lines 259-320): filter, order by
importance then recency (both descending), bound by `LIMIT`.  Among rows
equal in both sort keys SQL leaves the order unspecified; the embedding
fixes one compliant order via insertion sort. -/
def searchMemories (db : Db) (uid : String) (query memoryType : Option String)
    (lim : Nat) (minImportance : ℚ) : List MemoryRow :=
  ((db.memories.filter (rowMatches uid query memoryType minImportance)).insertionSort memOrder).take lim

/-- `ORDER BY updated_at DESC` on session rows. -/
def sessOrder (a b : SessionRow) : Prop :=
  b.updatedAt ≤ a.updatedAt

instance : DecidableRel sessOrder := fun a b => by
  unfold sessOrder; infer_instance

instance : IsTotal SessionRow sessOrder where
  total a b := Nat.le_total b.updatedAt a.updatedAt

instance : IsTrans SessionRow sessOrder where
  trans _ _ _ hab hbc := hbc.trans hab

/-- The `important_memories` query of `get_user_memories_summary`
(memory_manager.py lines 328-332): `limit=5, min_importance=5.0`. -/
def importantMemories (db : Db) (uid : String) : List MemoryRow :=
  searchMemories db uid none none 5 5

/-- The recent-session query of `get_user_memories_summary`
(memory_manager.py lines 335-344): `ORDER BY updated_at DESC LIMIT 3`. -/
def recentSessions (db : Db) (uid : String) : List SessionRow :=
  ((db.sessions.filter (fun s => decide (s.userId = uid))).insertionSort sessOrder).take 3

/-- One memory line of `get_user_context`. -/
def memoryLine (m : MemoryRow) : String :=
  "- [" ++ m.memoryType ++ "] " ++ m.content

/-- One session-summary line of `get_user_context`. -/
def sessionLine (s : SessionRow) : String :=
  "- " ++ s.summary

/-- The `context_parts` list of `MemoryManager.get_user_context`
(memory_manager.py lines 534-568): preferences section, important-memory
section, recent-session section, each omitted when empty. -/
def contextParts (db : Db) (uid : String) : List String :=
  (match getUserPreference db uid with
   | none => []
   | some p => ["用戶偏好：\n" ++ p]) ++
  (let mems := importantMemories db uid
   if mems.isEmpty then []
   else ["重要記憶：\n" ++ String.intercalate ("\n") (mems.map memoryLine)]) ++
  (let sess := recentSessions db uid
   if sess.isEmpty then []
   else ["最近的會話摘要：\n" ++ String.intercalate ("\n") (sess.map sessionLine)])

/-- `get_user_context`: the sections joined by a blank line. -/
def getUserContext (db : Db) (uid : String) : String :=
  String.intercalate ("\n\n") (contextParts db uid)

/-- The `is_new_session` test of `routes.chat` and `routes.chat_stream`
(routes.py lines 77-81): true when the checkpointed state is empty or has
no messages. -/
def isNewSession (prior : List Message) : Bool :=
  prior.isEmpty

/-- The memory-context acquisition of `routes.chat` / `routes.chat_stream`
(routes.py lines 83-86): `get_user_context` runs only for a new session.
`getCtx` is the opaque `memory_manager.get_user_context`. -/
def chatRouteContext (getCtx : String → String) (uid : String) (prior : List Message) : Option String :=
  if isNewSession prior then some (getCtx uid) else none

/-- The memory-context acquisition of `routes.agent_chat_stream` (routes.py
lines 462-465): `get_user_context` runs unconditionally, with no
new-session test and no cache. -/
def agentStreamRouteContext (getCtx : String → String) (uid : String)
    (_prior : List Message) : Option String :=
  some (getCtx uid)

/-- External events of one streamed turn, as the SSE payloads of
`routes.chat_stream`: content fragments, status lines, an error payload,
and the `[DONE]` sentinel. -/
inductive SseEvent
  | content (text : String)
  | status (message : String)
  | errorEvt (message : String)
  | done
deriving DecidableEq

/-- The event sequence produced by the `generate()` generator of
`routes.chat_stream` (routes.py lines 120-174): one content event per
truthy streamed chunk; when the body completes, the `[DONE]` sentinel;
when it raises, the `except` branch yields a single error payload and the
generator ends there.  `chunks` are the fragments streamed before the
failure point, `failure` the exception message if one was raised. -/
def chatStreamEvents (chunks : List String) (failure : Option String) : List SseEvent :=
  let contents := (chunks.filter (fun c => !(decide (c = "")))).map SseEvent.content
  match failure with
  | none => contents ++ [SseEvent.done]
  | some e => contents ++ [SseEvent.errorEvt e]

/-- One write operation against the long-term store, with its arguments. -/
inductive StoreOp
  | memOp (uid memoryType content metadataJson : String) (importanceScore : ℚ) (now newId : Nat)
  | sessOp (sid uid summary keyPointsJson : String) (now : Nat)
  | tongueOp (uid : String) (sid : Option String) (predictionJson analysisResponse : String)
      (additionalInfo : Option String) (now newId : Nat)
  | prefOp (uid prefsJson : String) (now : Nat)

/-- The committed effect of one store method. -/
def applyOp (db : Db) : StoreOp → Db
  | StoreOp.memOp uid mt c md imp now newId => saveMemory db uid mt c md imp now newId
  | StoreOp.sessOp sid uid s kp now => saveSessionSummary db sid uid s kp now
  | StoreOp.tongueOp uid sid pj ar addl now newId => saveTongueAnalysis db uid sid pj ar addl now newId
  | StoreOp.prefOp uid pj now => saveUserPreference db uid pj now

/-- A sequence of store calls; the Boolean is the transaction outcome: the
`_get_connection` context manager commits the whole method body on success
and rolls the whole body back when anything in it raises, so a failed call
leaves the store unchanged. -/
def runOps (db : Db) (ops : List (StoreOp × Bool)) : Db :=
  ops.foldl (fun d p => if p.2 then applyOp d p.1 else d) db

/-- Referential integrity: every memory, session and analysis row names an
existing `user_memory` row. -/
def childrenOk (db : Db) : Bool :=
  db.memories.all (fun m => hasUser db.users m.userId) &&
  db.sessions.all (fun s => hasUser db.users s.userId) &&
  db.analyses.all (fun a => hasUser db.users a.userId)

/-- Modelled from the spec: the clamp of the importance score to the
interval [0,10] that section 4.5 claims `saveMemory` applies.  Present for
comparison only; the source has no counterpart. -/
def specClampImportance (x : ℚ) : ℚ :=
  min 10 (max 0 x)

/-- A generation backend stub: a plain answer without tool calls. -/
def stubLlm : List Message → Message :=
  fun _ => { role := Role.ai, content := "ok" }

/-- A generation backend stub that requests the vision tool on every call. -/
def alwaysToolLlm : List Message → Message :=
  fun _ => { role := Role.ai, content := "",
             toolCalls := [{ id := "t1", name := "predict_tongue_image_tool", imagePathArg := "p.jpg" }] }

/-- Number of system messages in a log. -/
def countSystem (msgs : List Message) : Nat :=
  (msgs.filter (fun m => decide (m.role = Role.system))).length

/-- Fixture: an assistant message carrying two tool calls — one for an
unregistered tool, one for the vision tool without any image path. -/
def wAiMsg : Message :=
  { role := Role.ai, content := "",
    toolCalls := [{ id := "call-a", name := "other_tool", imagePathArg := "" },
                  { id := "call-b", name := "predict_tongue_image_tool", imagePathArg := "" }] }

/-- Fixture: agent state whose log ends in `wAiMsg` and that resolves no
image path. -/
def wToolState : AgentState :=
  { messages := [{ role := Role.human, content := "hi" }, wAiMsg], imagePath := "" }

/-- Fixture: three memory rows for two users. -/
def wDb : Db :=
  { users := [{ userId := "u1", preferences := none, createdAt := 0, updatedAt := 0 },
              { userId := "u2", preferences := none, createdAt := 0, updatedAt := 0 }],
    memories :=
      [{ id := 1, userId := "u1", memoryType := "fact", content := "likes tea",
         metadata := "m1", importance := 6, createdAt := 1, updatedAt := 1 },
       { id := 2, userId := "u1", memoryType := "fact", content := "drinks tea daily",
         metadata := "m2", importance := 9, createdAt := 2, updatedAt := 2 },
       { id := 3, userId := "u2", memoryType := "fact", content := "tea lover",
         metadata := "m3", importance := 10, createdAt := 3, updatedAt := 3 }],
    sessions := [], analyses := [] }

/-- Fixture: one memory row whose content matches the LIKE pattern
`%a_c%` through the `_` wildcard without containing the query text
itself. -/
def wLikeDb : Db :=
  { users := [{ userId := "u1", preferences := none, createdAt := 0, updatedAt := 0 }],
    memories :=
      [{ id := 1, userId := "u1", memoryType := "fact", content := "abc",
         metadata := "md", importance := 1, createdAt := 0, updatedAt := 0 }],
    sessions := [], analyses := [] }

/-- Fixture: a run of store calls — a memory write, a failed tongue-record
write (rolled back), a session summary and a committed tongue record. -/
def wOps : List (StoreOp × Bool) :=
  [(StoreOp.memOp ("u1") ("fact") ("likes tea") ("md") 7 1 1, true),
   (StoreOp.tongueOp ("u2") (some ("s1")) ("pred") ("resp") none 2 1, false),
   (StoreOp.sessOp ("s2") ("u3") ("summary") ("kp") 3, true),
   (StoreOp.tongueOp ("u4") none ("pred2") ("resp2") (some ("info")) 4 2, true),
   (StoreOp.prefOp ("u1") ("prefs") 5, true)]

/-- Fixture: a store holding a user row whose `preferences` column was
never written (the shape `ensureUser` leaves behind). -/
def wDbUserNoPrefs : Db :=
  { emptyDb with users := [{ userId := "u9", preferences := none, createdAt := 0, updatedAt := 0 }] }

/-- The tool-dispatch contract of `tool_node` for the last message of the
log: one tool-result per request, in request order, each carrying the
request id; an unregistered name yields the unknown-tool payload and a
vision request with no resolvable path yields the missing-path payload. -/
def ToolNodeContract (invokeTool : String → String) (st : AgentState) (lastMsg : Message) : Prop :=
  (toolNode invokeTool st).length = lastMsg.toolCalls.length ∧
  ∀ i : Nat, ∀ tc : ToolCall, lastMsg.toolCalls[i]? = some tc →
    ∃ out : Message, (toolNode invokeTool st)[i]? = some out ∧
      out.toolCallId = some tc.id ∧
      out.role = Role.tool ∧
      (tc.name ≠ "predict_tongue_image_tool" → out.content = unknownToolContent tc.name) ∧
      (tc.name = "predict_tongue_image_tool" → tc.imagePathArg = "" → st.imagePath = "" →
        out.content = missingPathContent)

/-- Referential integrity as a proposition, equivalent to `childrenOk`. -/
def ChildrenWf (db : Db) : Prop :=
  (∀ m ∈ db.memories, hasUser db.users m.userId = true) ∧
  (∀ s ∈ db.sessions, hasUser db.users s.userId = true) ∧
  (∀ a ∈ db.analyses, hasUser db.users a.userId = true)

/-- Fixture: fifty memories for one user, all at importance 9 — the
context-bound scenario of the spec's testable properties. -/
def wBigDb : Db :=
  { users := [{ userId := "u1", preferences := none, createdAt := 0, updatedAt := 0 }],
    memories := (List.range 50).map (fun i =>
      { id := i, userId := "u1", memoryType := "fact", content := "memory",
        metadata := "md", importance := 9, createdAt := i, updatedAt := i }),
    sessions := [], analyses := [] }

/-! Helper lemmas. -/

theorem lastToolCalls_of_getLast {msgs : List Message} {m : Message}
    (h : msgs.getLast? = some m) : lastToolCalls msgs = m.toolCalls := by
  simp [lastToolCalls, h]

theorem lastToolCalls_concat (msgs : List Message) (m : Message) :
    lastToolCalls (msgs ++ [m]) = m.toolCalls := by
  simp [lastToolCalls]

/-- Claim C1: for every assistant message with a non-empty tool-call list,
`tool_node` produces exactly one tool-result per request, each carrying
the request's id, in request order; an unregistered tool name yields the
unknown-tool error payload, a recognized request with no resolvable image
path yields the missing-path error payload, and the step is a total
function (the Python tool catches its own exceptions), so nothing is
raised to the caller. -/
theorem tool_node_dispatch (invokeTool : String → String) (st : AgentState)
    (lastMsg : Message) (h : st.messages.getLast? = some lastMsg) :
    ToolNodeContract invokeTool st lastMsg := by
  have hl : lastToolCalls st.messages = lastMsg.toolCalls := lastToolCalls_of_getLast h
  constructor
  · simp [toolNode, hl]
  · intro i tc htc
    refine ⟨runToolCall invokeTool st.imagePath tc, ?_, ?_, ?_, ?_, ?_⟩
    · simp [toolNode, hl, List.getElem?_map, htc]
    · simp only [runToolCall]
      split_ifs <;> rfl
    · simp only [runToolCall]
      split_ifs <;> rfl
    · intro hn
      simp [runToolCall, hn, unknownToolContent]
    · intro hn harg hst
      simp [runToolCall, hn, harg, hst]

/-- Witness for C1: the contract evaluated on a log ending in an assistant
message that requests an unregistered tool and a vision analysis without
any image path. -/
theorem tool_node_dispatch_witness :
    ToolNodeContract (fun _ => "R") wToolState wAiMsg :=
  tool_node_dispatch (fun _ => "R") wToolState wAiMsg rfl

theorem countSystem_append (a b : List Message) :
    countSystem (a ++ b) = countSystem a + countSystem b := by
  simp [countSystem, List.filter_append]

theorem hasSystemMessage_false_iff (msgs : List Message) :
    hasSystemMessage msgs = false ↔ countSystem msgs = 0 := by
  simp [hasSystemMessage, countSystem, List.any_eq_false, List.filter_eq_nil_iff,
    List.length_eq_zero]

/-- Counterexample to C2: in the tool-enabled mode, the first turn of a
session starting from an empty log synthesizes a preamble for the LLM call
but the returned log still contains no system message, and the next
generation on that log synthesizes a preamble again (`agentPrompt` differs
from the log) — the synthesized system message is never appended. -/
theorem agent_preamble_not_persisted_counterexample :
    hasSystemMessage (agentTurn stubLlm [] none ("hi")) = false ∧
    agentPrompt { messages := agentTurn stubLlm [] none ("hi") } ≠
      agentTurn stubLlm [] none ("hi") := by
  decide

/-- Claim C2 as amended: the once-per-session synthesis with persistence
holds for the CHAT-mode node — a system-free log gains exactly one system
message, which later turns then see, and a log that already has one gains
none — while the TOOL_ENABLED-mode `agent_node` never appends its
synthesized preamble to the log. -/
theorem chat_preamble_once_agent_node_never (llm : List Message → Message)
    (hllm : ∀ ms, (llm ms).role = Role.ai) :
    (∀ log memCtx userText, hasSystemMessage log = false →
        countSystem (chatTurn llm log memCtx userText) = 1 ∧
        hasSystemMessage (chatTurn llm log memCtx userText) = true) ∧
    (∀ log memCtx userText, hasSystemMessage log = true →
        countSystem (chatTurn llm log memCtx userText) = countSystem log) ∧
    (∀ st : AgentState, countSystem (st.messages ++ agentNode llm st) = countSystem st.messages) := by
  refine ⟨?_, ?_, ?_⟩
  · intro log memCtx userText hno
    have h0 : countSystem log = 0 := (hasSystemMessage_false_iff log).mp hno
    have hts : hasSystemMessage (log ++ [{ role := Role.human, content := userText }]) = false := by
      rw [hasSystemMessage_false_iff, countSystem_append, h0]
      simp [countSystem]
    constructor
    · simp only [chatTurn, chatNode, hts, if_neg, Bool.false_eq_true, if_false]
      rw [countSystem_append, countSystem_append, h0]
      simp [countSystem, hllm]
    · rw [← Bool.not_eq_false, hasSystemMessage_false_iff]
      simp only [chatTurn, chatNode, hts, Bool.false_eq_true, if_false]
      rw [countSystem_append, countSystem_append, h0]
      simp [countSystem]
  · intro log memCtx userText hyes
    have hts : hasSystemMessage (log ++ [{ role := Role.human, content := userText }]) = true := by
      simp only [hasSystemMessage, List.any_append, Bool.or_eq_true]
      exact Or.inl hyes
    simp only [chatTurn, chatNode, hts, if_true]
    rw [countSystem_append, countSystem_append]
    simp [countSystem, hllm]
  · intro st
    rw [countSystem_append]
    simp [countSystem, agentNode, hllm]

/-- Witness for the amended C2, at the stub backend: a first chat turn on
an empty log yields exactly one system message, and a tool-mode generation
appends none. -/
theorem chat_preamble_once_witness :
    countSystem (chatTurn stubLlm [] none ("hi")) = 1 ∧
    countSystem (wToolState.messages ++ agentNode stubLlm wToolState) = countSystem wToolState.messages :=
  ⟨((chat_preamble_once_agent_node_never stubLlm (fun _ => rfl)).1 [] none ("hi") rfl).1,
   (chat_preamble_once_agent_node_never stubLlm (fun _ => rfl)).2.2 wToolState⟩

/-- Counterexample to C3: with a backend that requests a tool call on every
generation, the executor is still cycling after nine full
generate/tool rounds — no `LoopLimitExceeded` failure occurred after the
claimed default of eight rounds (the graph has no error outcome at all). -/
theorem loop_no_round_cap_counterexample :
    loopFinished (runToolAgent alwaysToolLlm (fun _ => "R") 9
      { messages := [{ role := Role.human, content := "hi" }] }) = false := by
  decide

/-- Claim C3 as amended: the generate/invoke-tool loop of the tool-enabled
executor enforces no round cap at all — `should_continue` picks the tools
edge exactly while the latest message carries tool calls, independent of
any round count, and with a backend that always requests a tool the loop
never completes of its own accord and never produces any error. -/
theorem loop_no_round_cap (llm : List Message → Message)
    (hllm : ∀ ms, (llm ms).toolCalls ≠ []) (invokeTool : String → String) :
    (∀ msgs, shouldContinue msgs = "tools" ↔ lastToolCalls msgs ≠ []) ∧
    (∀ fuel st, loopFinished (runToolAgent llm invokeTool fuel st) = false) := by
  have hsc : ∀ msgs, shouldContinue msgs = "tools" ↔ lastToolCalls msgs ≠ [] := by
    intro msgs
    simp only [shouldContinue]
    rcases h : (lastToolCalls msgs).isEmpty with _ | _
    · simp_all [List.isEmpty_iff]
    · simp_all [List.isEmpty_iff]
  refine ⟨hsc, ?_⟩
  intro fuel
  induction fuel with
  | zero => intro st; rfl
  | succ n ih =>
    intro st
    have hlast : lastToolCalls (st.messages ++ agentNode llm st) = (llm (agentPrompt st)).toolCalls := by
      simp [agentNode, lastToolCalls_concat]
    have hcond : shouldContinue (st.messages ++ agentNode llm st) = "tools" :=
      (hsc _).mpr (by rw [hlast]; exact hllm _)
    simp only [runToolAgent, hcond, if_true, reduceIte]
    exact ih _

/-- Witness for the amended C3: the always-tool stub at two observation
rounds, still cycling. -/
theorem loop_no_round_cap_witness :
    loopFinished (runToolAgent alwaysToolLlm (fun _ => "R") 2 { messages := [] }) = false :=
  (loop_no_round_cap alwaysToolLlm (fun _ => List.cons_ne_nil _ _) (fun _ => "R")).2 2 _

theorem mem_searchMemories {db : Db} {uid : String} {query memoryType : Option String}
    {lim : Nat} {minImportance : ℚ} {r : MemoryRow}
    (h : r ∈ searchMemories db uid query memoryType lim minImportance) :
    rowMatches uid query memoryType minImportance r = true := by
  have h1 : r ∈ (db.memories.filter (rowMatches uid query memoryType minImportance)).insertionSort memOrder :=
    (List.take_sublist _ _).subset h
  rw [List.mem_insertionSort] at h1
  exact (List.mem_filter.mp h1).2

theorem searchMemories_sorted (db : Db) (uid : String) (query memoryType : Option String)
    (lim : Nat) (minImportance : ℚ) :
    List.Sorted memOrder (searchMemories db uid query memoryType lim minImportance) :=
  List.Pairwise.take (List.sorted_insertionSort memOrder _)

theorem searchMemories_length_le (db : Db) (uid : String) (query memoryType : Option String)
    (lim : Nat) (minImportance : ℚ) :
    (searchMemories db uid query memoryType lim minImportance).length ≤ lim :=
  List.length_take_le _ _

theorem likeToks_cons_plain {c : Char} (p : List Char)
    (h1 : ¬c = '%') (h2 : ¬c = '_') (h3 : ¬c = '\\') :
    likeToks (c :: p) = LikeTok.lit c :: likeToks p := by
  rw [likeToks.eq_def]
  dsimp only
  rw [if_neg h1, if_neg h2, if_neg h3]

theorem likeStar_run_nil (t : List Char) : likeStar (likeRun []) t = true := by
  induction t with
  | nil => rfl
  | cons c t ih => rw [likeStar, ih, Bool.or_true]

theorem likeRun_lit_append_any (q : List Char) :
    ∀ t, likeRun (q.map LikeTok.lit ++ [LikeTok.any]) t = q.isPrefixOf t := by
  induction q with
  | nil =>
    intro t
    rw [List.map_nil, List.nil_append, likeRun, likeStar_run_nil t,
      List.isPrefixOf_nil_left]
  | cons c q ih =>
    intro t
    cases t with
    | nil => rfl
    | cons c2 t' =>
      show ((c == c2) && likeRun (q.map LikeTok.lit ++ [LikeTok.any]) t') =
        (c :: q).isPrefixOf (c2 :: t')
      rw [ih t']
      rfl

theorem isPrefixOf_nil_eq (q : List Char) : q.isPrefixOf [] = q.isEmpty := by
  cases q <;> rfl

theorem likeToks_plain : ∀ q : List Char, plainQuery q = true →
    likeToks q = q.map LikeTok.lit := by
  intro q
  induction q with
  | nil => intro _; rfl
  | cons c q ih =>
    intro hq
    rw [plainQuery, List.all_cons, Bool.and_eq_true] at hq
    obtain ⟨hc, hrest⟩ := hq
    simp only [Bool.and_eq_true, Bool.not_eq_true', decide_eq_false_iff_not] at hc
    obtain ⟨⟨h1, h2⟩, h3⟩ := hc
    rw [likeToks_cons_plain q h1 h2 h3, List.map_cons, ih hrest]

theorem likeToks_plain_append : ∀ q : List Char, plainQuery q = true →
    likeToks (q ++ ['%']) = q.map LikeTok.lit ++ [LikeTok.any] := by
  intro q
  induction q with
  | nil => intro _; rfl
  | cons c q ih =>
    intro hq
    rw [plainQuery, List.all_cons, Bool.and_eq_true] at hq
    obtain ⟨hc, hrest⟩ := hq
    simp only [Bool.and_eq_true, Bool.not_eq_true', decide_eq_false_iff_not] at hc
    obtain ⟨⟨h1, h2⟩, h3⟩ := hc
    rw [List.cons_append, likeToks_cons_plain (q ++ ['%']) h1 h2 h3, ih hrest, List.map_cons,
      List.cons_append]

theorem likeMatch_plain (q : List Char) (hq : plainQuery q = true) :
    ∀ s, likeMatch (('%' :: q) ++ ['%']) s = subMatch q s := by
  have htoks : likeToks (('%' :: q) ++ ['%']) =
      LikeTok.any :: (q.map LikeTok.lit ++ [LikeTok.any]) := by
    rw [List.cons_append, likeToks.eq_def]
    dsimp only
    rw [if_pos rfl, likeToks_plain_append q hq]
  intro s
  unfold likeMatch
  rw [htoks]
  show likeStar (likeRun (q.map LikeTok.lit ++ [LikeTok.any])) s = subMatch q s
  induction s with
  | nil =>
    show likeRun (q.map LikeTok.lit ++ [LikeTok.any]) [] = subMatch q []
    rw [likeRun_lit_append_any q, isPrefixOf_nil_eq]
    rfl
  | cons c t ih =>
    show (likeRun (q.map LikeTok.lit ++ [LikeTok.any]) (c :: t) ||
      likeStar (likeRun (q.map LikeTok.lit ++ [LikeTok.any])) t) = subMatch q (c :: t)
    rw [likeRun_lit_append_any q, ih]
    rfl

theorem likeContains_plain (hay q : String) (hq : plainQuery q.toList = true) :
    likeContains hay q = subMatch q.toList hay.toList := by
  unfold likeContains
  exact likeMatch_plain q.toList hq hay.toList

/-- Counterexample to C4: the query is embedded unescaped in the LIKE
pattern, so its wildcards stay live — for the query `a_c` (underscore
matching any one character) the program returns the row with content
`abc`, which contains the query as a substring of neither content nor
metadata. -/
theorem search_query_wildcard_counterexample :
    (searchMemories wLikeDb ("u1") (some ("a_c")) none 10 0).length = 1 ∧
    (∀ r ∈ searchMemories wLikeDb ("u1") (some ("a_c")) none 10 0,
      subMatch ("a_c").toList r.content.toList = false ∧
      subMatch ("a_c").toList r.metadata.toList = false) := by
  decide

/-- Claim C4 as amended: `search_memories` returns only rows of the given
user at or above the importance floor, filtered by kind when given
(non-empty); when a non-empty query is given, every returned record's
content or metadata matches the SQL LIKE pattern `%query%` in which the
unescaped query's `%`, `_` and backslash stay live — which coincides with
substring match exactly when the query holds no wildcard or escape
character; the result is ordered by importance descending with ties
broken by `updated_at` descending and bounded by the limit. -/
theorem search_memories_contract (db : Db) (uid : String) (query memoryType : Option String)
    (lim : Nat) (minImportance : ℚ) :
    (∀ r ∈ searchMemories db uid query memoryType lim minImportance,
        r.userId = uid ∧ minImportance ≤ r.importance) ∧
    (∀ t, memoryType = some t → t ≠ "" →
        ∀ r ∈ searchMemories db uid query memoryType lim minImportance, r.memoryType = t) ∧
    (∀ q, query = some q → q ≠ "" →
        ∀ r ∈ searchMemories db uid query memoryType lim minImportance,
          likeContains r.content q = true ∨ likeContains r.metadata q = true) ∧
    (∀ q, query = some q → q ≠ "" → plainQuery q.toList = true →
        ∀ r ∈ searchMemories db uid query memoryType lim minImportance,
          subMatch q.toList r.content.toList = true ∨ subMatch q.toList r.metadata.toList = true) ∧
    List.Sorted memOrder (searchMemories db uid query memoryType lim minImportance) ∧
    (searchMemories db uid query memoryType lim minImportance).length ≤ lim := by
  have hquery : ∀ q, query = some q → q ≠ "" →
      ∀ r ∈ searchMemories db uid query memoryType lim minImportance,
        likeContains r.content q = true ∨ likeContains r.metadata q = true := by
    intro q hq hne r hr
    have hm := mem_searchMemories hr
    subst hq
    simp only [rowMatches, Bool.and_eq_true, decide_eq_true_eq] at hm
    have := hm.2
    simpa [queryFilter, hne, Bool.or_eq_true] using this
  refine ⟨?_, ?_, hquery, ?_, searchMemories_sorted db uid query memoryType lim minImportance,
    searchMemories_length_le db uid query memoryType lim minImportance⟩
  · intro r hr
    have hm := mem_searchMemories hr
    simp only [rowMatches, Bool.and_eq_true, decide_eq_true_eq] at hm
    exact ⟨hm.1.1.1, hm.1.1.2⟩
  · intro t ht hne r hr
    have hm := mem_searchMemories hr
    subst ht
    simp only [rowMatches, Bool.and_eq_true, decide_eq_true_eq] at hm
    have := hm.1.2
    simpa [typeFilter, hne] using this
  · intro q hq hne hplain r hr
    rcases hquery q hq hne r hr with h | h
    · left
      rw [← likeContains_plain r.content q hplain]
      exact h
    · right
      rw [← likeContains_plain r.metadata q hplain]
      exact h

/-- Witness for C4: the search evaluated on a concrete store — both tea
memories of user u1 are returned, higher importance first — together with
the contract applied at the same input. -/
theorem search_memories_contract_witness :
    searchMemories wDb ("u1") (some ("tea")) (some ("fact")) 2 5 =
      [{ id := 2, userId := "u1", memoryType := "fact", content := "drinks tea daily",
         metadata := "m2", importance := 9, createdAt := 2, updatedAt := 2 },
       { id := 1, userId := "u1", memoryType := "fact", content := "likes tea",
         metadata := "m1", importance := 6, createdAt := 1, updatedAt := 1 }] ∧
    (∀ r ∈ searchMemories wDb ("u1") (some ("tea")) (some ("fact")) 2 5,
        r.userId = "u1" ∧ (5 : ℚ) ≤ r.importance) :=
  ⟨by decide, (search_memories_contract wDb ("u1") (some ("tea")) (some ("fact")) 2 5).1⟩

theorem ensureUser_memories (db : Db) (uid : String) (now : Nat) :
    (ensureUser db uid now).memories = db.memories := by
  unfold ensureUser; split <;> rfl

/-- Counterexample to C5: saving a memory with importance 15 stores 15
verbatim, while the clamp claimed by the spec would store 10. -/
theorem save_memory_no_clamp_counterexample :
    ((saveMemory emptyDb ("u") ("fact") ("c") ("md") 15 0 1).memories.map
      (fun m => m.importance)) = [15] ∧
    specClampImportance 15 = 10 ∧ (15 : ℚ) ≠ 10 := by
  refine ⟨by decide, ?_, by decide⟩
  simp [specClampImportance]
  norm_num

/-- Claim C5 as amended: `save_memory` appends exactly one record and
stores the given importance score unchanged — no clamping to [0,10] (or
any interval) is performed. -/
theorem save_memory_stores_importance_verbatim (db : Db) (uid memoryType content metadataJson : String)
    (importanceScore : ℚ) (now newId : Nat) :
    ((saveMemory db uid memoryType content metadataJson importanceScore now newId).memories.getLast?).map
      (fun m => m.importance) = some importanceScore ∧
    (saveMemory db uid memoryType content metadataJson importanceScore now newId).memories.length =
      db.memories.length + 1 := by
  constructor
  · simp [saveMemory, ensureUser_memories, List.getLast?_concat]
  · simp [saveMemory, ensureUser_memories]

/-- Counterexample to C6: on a turn whose session already holds a prior
message (not a first turn), the tool-agent stream route still queries the
long-term store for user context, while the chat route does not. -/
theorem agent_stream_requeries_context_counterexample :
    agentStreamRouteContext (fun _ => "CTX") ("u") [{ role := Role.human, content := "prior" }] =
      some ("CTX") ∧
    isNewSession [{ role := Role.human, content := "prior" }] = false ∧
    chatRouteContext (fun _ => "CTX") ("u") [{ role := Role.human, content := "prior" }] = none := by
  decide

/-- Claim C6 as amended: the chat and chat-stream routes run the
context-assembly query exactly on a session's first turn (empty
checkpointed log) and skip it afterwards, but the tool-agent stream route
runs `get_user_context` unconditionally on every turn, with no caching in
session state. -/
theorem route_context_query_policy (getCtx : String → String) (uid : String)
    (prior : List Message) :
    (chatRouteContext getCtx uid prior).isSome = isNewSession prior ∧
    (isNewSession prior = false → chatRouteContext getCtx uid prior = none) ∧
    agentStreamRouteContext getCtx uid prior = some (getCtx uid) := by
  refine ⟨?_, ?_, rfl⟩
  · unfold chatRouteContext
    rcases h : isNewSession prior <;> simp [h]
  · intro h
    simp [chatRouteContext, h]

/-- Witness for the amended C6: a session with one prior message — the
chat route skips the query, the agent stream route still queries. -/
theorem route_context_query_policy_witness :
    chatRouteContext (fun _ => "CTX") ("u") [{ role := Role.human, content := "prior2" }] = none ∧
    agentStreamRouteContext (fun _ => "CTX") ("u") [{ role := Role.human, content := "prior2" }] =
      some ("CTX") :=
  ⟨(route_context_query_policy (fun _ => "CTX") ("u")
      [{ role := Role.human, content := "prior2" }]).2.1 rfl,
   (route_context_query_policy (fun _ => "CTX") ("u")
      [{ role := Role.human, content := "prior2" }]).2.2⟩

/-- Claim C7: the assembled user context is bounded — at most five memory
lines, drawn only from the user's memories at importance at least 5, and
at most three recent session summaries, for every store content. -/
theorem user_context_bounded (db : Db) (uid : String) :
    (importantMemories db uid).length ≤ 5 ∧
    (∀ m ∈ importantMemories db uid, (5 : ℚ) ≤ m.importance ∧ m.userId = uid) ∧
    (recentSessions db uid).length ≤ 3 ∧
    ((importantMemories db uid).map memoryLine).length ≤ 5 := by
  refine ⟨searchMemories_length_le db uid none none 5 5, ?_, List.length_take_le _ _, ?_⟩
  · intro m hm
    have h := mem_searchMemories hm
    simp only [rowMatches, Bool.and_eq_true, decide_eq_true_eq] at h
    exact ⟨h.1.1.2, h.1.1.1⟩
  · rw [List.length_map]
    exact searchMemories_length_le db uid none none 5 5

/-- Witness for C7: fifty stored memories at importance 9 for one user
yield exactly five memory lines in the assembled context. -/
theorem user_context_bounded_witness :
    (importantMemories wBigDb ("u1")).length ≤ 5 ∧
    ((importantMemories wBigDb ("u1")).map memoryLine).length = 5 :=
  ⟨(user_context_bounded wBigDb ("u1")).1, by decide⟩

/-- Counterexample to C8: when the stream body raises before any chunk is
emitted, the generator yields the single error payload and stops — the
event sequence contains no `done` sentinel at all, so the error is not
followed by `done`. -/
theorem error_not_followed_by_done_counterexample :
    chatStreamEvents [] (some ("boom")) = [SseEvent.errorEvt ("boom")] ∧
    (chatStreamEvents [] (some ("boom"))).count SseEvent.done = 0 := by
  decide

/-- Claim C8 as amended: on the success path the stream ends with exactly
one `done` sentinel as its last element, but on internal error a single
error payload is emitted as the last element and no `done` sentinel
follows it. -/
theorem sse_stream_termination (chunks : List String) (failure : Option String) :
    (failure = none →
        (chatStreamEvents chunks failure).count SseEvent.done = 1 ∧
        (chatStreamEvents chunks failure).getLast? = some SseEvent.done) ∧
    (∀ e, failure = some e →
        (chatStreamEvents chunks failure).count SseEvent.done = 0 ∧
        (chatStreamEvents chunks failure).getLast? = some (SseEvent.errorEvt e)) := by
  have hcontents : ∀ c : SseEvent,
      c ∈ (chunks.filter (fun s => !(decide (s = "")))).map SseEvent.content →
      ∃ t, c = SseEvent.content t := by
    intro c hc
    rcases List.mem_map.mp hc with ⟨t, _, rfl⟩
    exact ⟨t, rfl⟩
  constructor
  · rintro rfl
    constructor
    · rw [chatStreamEvents, List.count_append]
      have h0 : ((chunks.filter (fun s => !(decide (s = "")))).map SseEvent.content).count SseEvent.done = 0 := by
        rw [List.count_eq_zero]
        intro hmem
        rcases hcontents _ hmem with ⟨t, ht⟩
        exact SseEvent.noConfusion ht
      rw [h0]
      rfl
    · exact List.getLast?_concat _
  · rintro e rfl
    constructor
    · rw [chatStreamEvents, List.count_append]
      have h0 : ((chunks.filter (fun s => !(decide (s = "")))).map SseEvent.content).count SseEvent.done = 0 := by
        rw [List.count_eq_zero]
        intro hmem
        rcases hcontents _ hmem with ⟨t, ht⟩
        exact SseEvent.noConfusion ht
      rw [h0]
      rfl
    · exact List.getLast?_concat _

/-- Witness for the amended C8: a successful two-chunk stream ends in one
`done`; a stream failing after one chunk ends in the error payload. -/
theorem sse_stream_termination_witness :
    ((chatStreamEvents ["a", "b"] none).count SseEvent.done = 1 ∧
      (chatStreamEvents ["a", "b"] none).getLast? = some SseEvent.done) ∧
    ((chatStreamEvents ["a"] (some ("oops"))).count SseEvent.done = 0 ∧
      (chatStreamEvents ["a"] (some ("oops"))).getLast? = some (SseEvent.errorEvt ("oops"))) :=
  ⟨(sse_stream_termination ["a", "b"] none).1 rfl,
   (sse_stream_termination ["a"] (some ("oops"))).2 ("oops") rfl⟩

theorem hasUser_append (us ex : List UserRow) (v : String) :
    hasUser (us ++ ex) v = (hasUser us v || hasUser ex v) := by
  simp [hasUser, List.any_append]

theorem hasUser_mono {us : List UserRow} (ex : List UserRow) {v : String}
    (h : hasUser us v = true) : hasUser (us ++ ex) v = true := by
  rw [hasUser_append, h, Bool.true_or]

theorem hasUser_map (us : List UserRow) (f : UserRow → UserRow)
    (hf : ∀ u, (f u).userId = u.userId) (v : String) :
    hasUser (us.map f) v = hasUser us v := by
  simp [hasUser, List.any_map, Function.comp_def, hf]

theorem ensureUser_users_mono (db : Db) (uid : String) (now : Nat) {v : String}
    (h : hasUser db.users v = true) : hasUser (ensureUser db uid now).users v = true := by
  unfold ensureUser
  split
  · exact h
  · exact hasUser_mono _ h

theorem ensureUser_self (db : Db) (uid : String) (now : Nat) :
    hasUser (ensureUser db uid now).users uid = true := by
  unfold ensureUser
  split
  · assumption
  · rw [hasUser_append]
    simp [hasUser]

theorem ensureUser_sessions (db : Db) (uid : String) (now : Nat) :
    (ensureUser db uid now).sessions = db.sessions := by
  unfold ensureUser; split <;> rfl

theorem ensureUser_analyses (db : Db) (uid : String) (now : Nat) :
    (ensureUser db uid now).analyses = db.analyses := by
  unfold ensureUser; split <;> rfl

theorem childrenOk_iff (db : Db) : childrenOk db = true ↔ ChildrenWf db := by
  simp [childrenOk, ChildrenWf, Bool.and_eq_true, List.all_eq_true, and_assoc]

theorem wf_saveMemory (db : Db) (uid memoryType content metadataJson : String)
    (importanceScore : ℚ) (now newId : Nat) (h : ChildrenWf db) :
    ChildrenWf (saveMemory db uid memoryType content metadataJson importanceScore now newId) := by
  obtain ⟨hm, hs, ha⟩ := h
  refine ⟨?_, ?_, ?_⟩
  · intro m hmem
    simp only [saveMemory, ensureUser_memories, List.mem_append, List.mem_singleton] at hmem
    rcases hmem with hold | rfl
    · exact ensureUser_users_mono db uid now (hm m hold)
    · exact ensureUser_self db uid now
  · intro s hmem
    simp only [saveMemory, ensureUser_sessions] at hmem
    exact ensureUser_users_mono db uid now (hs s hmem)
  · intro a hmem
    simp only [saveMemory, ensureUser_analyses] at hmem
    exact ensureUser_users_mono db uid now (ha a hmem)

theorem wf_saveTongueAnalysis (db : Db) (uid : String) (sid : Option String)
    (predictionJson analysisResponse : String) (additionalInfo : Option String)
    (now newId : Nat) (h : ChildrenWf db) :
    ChildrenWf (saveTongueAnalysis db uid sid predictionJson analysisResponse additionalInfo now newId) := by
  obtain ⟨hm, hs, ha⟩ := h
  refine ⟨?_, ?_, ?_⟩
  · intro m hmem
    simp only [saveTongueAnalysis, ensureUser_memories] at hmem
    exact ensureUser_users_mono db uid now (hm m hmem)
  · intro s hmem
    simp only [saveTongueAnalysis, ensureUser_sessions] at hmem
    exact ensureUser_users_mono db uid now (hs s hmem)
  · intro a hmem
    simp only [saveTongueAnalysis, ensureUser_analyses, List.mem_append, List.mem_singleton] at hmem
    rcases hmem with hold | rfl
    · exact ensureUser_users_mono db uid now (ha a hold)
    · exact ensureUser_self db uid now

theorem wf_saveSessionSummary (db : Db) (sid uid summary keyPointsJson : String)
    (now : Nat) (h : ChildrenWf db) :
    ChildrenWf (saveSessionSummary db sid uid summary keyPointsJson now) := by
  obtain ⟨hm, hs, ha⟩ := h
  simp only [saveSessionSummary]
  split
  · refine ⟨?_, ?_, ?_⟩
    · intro m hmem
      simp only [ensureUser_memories] at hmem
      exact ensureUser_users_mono db uid now (hm m hmem)
    · intro s hmem
      simp only [List.mem_map] at hmem
      rcases hmem with ⟨s0, hs0, rfl⟩
      simp only [ensureUser_sessions] at hs0
      have huid : hasUser (ensureUser db uid now).users s0.userId :=
        ensureUser_users_mono db uid now (hs s0 hs0)
      split <;> simpa using huid
    · intro a hmem
      simp only [ensureUser_analyses] at hmem
      exact ensureUser_users_mono db uid now (ha a hmem)
  · refine ⟨?_, ?_, ?_⟩
    · intro m hmem
      simp only [ensureUser_memories] at hmem
      exact ensureUser_users_mono db uid now (hm m hmem)
    · intro s hmem
      simp only [ensureUser_sessions, List.mem_append, List.mem_singleton] at hmem
      rcases hmem with hold | rfl
      · exact ensureUser_users_mono db uid now (hs s hold)
      · exact ensureUser_self db uid now
    · intro a hmem
      simp only [ensureUser_analyses] at hmem
      exact ensureUser_users_mono db uid now (ha a hmem)

theorem wf_saveUserPreference (db : Db) (uid prefsJson : String) (now : Nat)
    (h : ChildrenWf db) : ChildrenWf (saveUserPreference db uid prefsJson now) := by
  obtain ⟨hm, hs, ha⟩ := h
  unfold saveUserPreference
  split
  · have husers : ∀ v, hasUser db.users v = true →
        hasUser (db.users.map (fun u =>
          if u.userId = uid then { u with preferences := some prefsJson, updatedAt := now } else u)) v = true := by
      intro v hv
      rw [hasUser_map]
      · exact hv
      · intro u
        split <;> rfl
    exact ⟨fun m hmem => husers _ (hm m hmem), fun s hmem => husers _ (hs s hmem),
      fun a hmem => husers _ (ha a hmem)⟩
  · exact ⟨fun m hmem => hasUser_mono _ (hm m hmem), fun s hmem => hasUser_mono _ (hs s hmem),
      fun a hmem => hasUser_mono _ (ha a hmem)⟩

theorem wf_applyOp (db : Db) (op : StoreOp) (h : ChildrenWf db) : ChildrenWf (applyOp db op) := by
  cases op with
  | memOp uid mt c md imp now newId => exact wf_saveMemory db uid mt c md imp now newId h
  | sessOp sid uid s kp now => exact wf_saveSessionSummary db sid uid s kp now h
  | tongueOp uid sid pj ar addl now newId => exact wf_saveTongueAnalysis db uid sid pj ar addl now newId h
  | prefOp uid pj now => exact wf_saveUserPreference db uid pj now h

theorem wf_runOps (ops : List (StoreOp × Bool)) :
    ∀ db : Db, ChildrenWf db → ChildrenWf (runOps db ops) := by
  induction ops with
  | nil => intro db h; exact h
  | cons p t ih =>
    intro db h
    have hstep : ChildrenWf (if p.2 then applyOp db p.1 else db) := by
      by_cases hp : p.2 = true
      · rw [if_pos hp]; exact wf_applyOp db p.1 h
      · simp only [Bool.not_eq_true] at hp
        rw [hp]; simpa using h
    exact ih _ hstep

/-- Claim C9: every child write (memory, tongue-analysis record, session
summary) upserts the owning user row first within the same transaction,
and a failed transaction rolls back whole, so after any sequence of
committed and failed store calls every child row still references an
existing user row. -/
theorem store_preserves_referential_integrity (db : Db) (ops : List (StoreOp × Bool))
    (h : childrenOk db = true) : childrenOk (runOps db ops) = true :=
  (childrenOk_iff _).mpr (wf_runOps ops db ((childrenOk_iff db).mp h))

/-- Witness for C9: a concrete run over a fresh store — a memory write, a
rolled-back tongue-record write, a session summary for a brand-new user, a
committed tongue record and a preference upsert — keeps integrity. -/
theorem store_preserves_referential_integrity_witness :
    childrenOk (runOps emptyDb wOps) = true :=
  store_preserves_referential_integrity emptyDb wOps (by decide)

/-- Claim C10: `get_user_preference` returns `None` both when no user row
exists for the id and when a user row exists whose `preferences` column
was never written, so the two situations are indistinguishable through
this operation alone. -/
theorem get_user_preference_none_ambiguous (db : Db) (uid : String) :
    (db.users.find? (fun u => decide (u.userId = uid)) = none →
      getUserPreference db uid = none) ∧
    (∀ row : UserRow, db.users.find? (fun u => decide (u.userId = uid)) = some row →
      row.preferences = none → getUserPreference db uid = none) := by
  constructor
  · intro h
    simp [getUserPreference, h]
  · intro row h hp
    simp [getUserPreference, h, hp]

/-- Witness for C10: an empty store (no user row) and a store holding the
row `ensureUser` leaves behind (user exists, preferences never saved) both
answer `None` for the same user id. -/
theorem get_user_preference_none_ambiguous_witness :
    getUserPreference emptyDb ("u9") = none ∧
    getUserPreference wDbUserNoPrefs ("u9") = none :=
  ⟨(get_user_preference_none_ambiguous emptyDb ("u9")).1 rfl,
   (get_user_preference_none_ambiguous wDbUserNoPrefs ("u9")).2
     { userId := "u9", preferences := none, createdAt := 0, updatedAt := 0 } (by decide) rfl⟩

end TongueAgent
